import Mathlib

/-!
Verification of the retrieval-augmented answer pipeline of the ulearntest
repository.  The TypeScript sources are embedded shallowly:

* scores are floating-point similarity values in the source; they are
  modelled as rationals (`ℚ`), with the literal `0.5` rendered as
  `Rat.divInt 1 2`;
* fallible network calls (Gemini embedContent / generateContent, Pinecone
  index queries) are modelled as `Except String` values supplied as inputs,
  so that each function of the source becomes a pure Lean function of the
  outcomes of the calls it makes;
* JavaScript string operations are modelled on the underlying character
  lists (`String.data`) so that every definition evaluates inside the
  kernel.
-/

/-! ## JavaScript string primitives -/

/-- JavaScript `String.prototype.toUpperCase` (ASCII fragment, which is all
the pipeline compares). -/
def jsToUpperCase (s : String) : String := ⟨s.data.map Char.toUpper⟩

/-- Characters removed by JavaScript `String.prototype.trim`. -/
def trimChars (l : List Char) : List Char :=
  ((l.dropWhile Char.isWhitespace).reverse.dropWhile Char.isWhitespace).reverse

/-- JavaScript `String.prototype.trim`. -/
def jsTrim (s : String) : String := ⟨trimChars s.data⟩

/-- Substring occurrence on character lists, used to model
JavaScript `String.prototype.includes`. -/
def listHasSub (sub : List Char) : List Char → Bool
  | [] => sub.isEmpty
  | c :: rest => sub.isPrefixOf (c :: rest) || listHasSub sub rest

/-- JavaScript `s.includes(sub)`. -/
def jsIncludes (s sub : String) : Bool := listHasSub sub.data s.data

/-- JavaScript `x || d` on an optional string: `undefined` and the empty
string are falsy and give the default. -/
def jsOrDefault (o : Option String) (d : String) : String :=
  match o with
  | none => d
  | some s => if s == "" then d else s

/-- A TypeScript `as string` cast of a possibly-undefined metadata value:
the runtime value is unchanged, and an undefined value renders as the
string `undefined` when interpolated. -/
def jsCastString (o : Option String) : String := o.getD "undefined"

/-- The similarity threshold literal `0.5` used throughout the pipeline. -/
def oneHalf : ℚ := Rat.divInt 1 2

/-! ## Shared data model

A Pinecone match as the query routes consume it: `score` is optional in
the client typings (`match.score`), and the metadata fields `text`,
`chunkNumber`/`chunk_number` and `source` may be absent.  Metadata values
are carried as their string renderings. -/

structure PineconeMatch where
  score : Option ℚ
  text : Option String
  chunkNumber : Option String
  source : Option String
deriving DecidableEq, Repr

/-! ## Embedding client (`generateEmbedding`, identical in all route files)

The provider response `result.embedding` is either a plain array of
numbers or a keyed object whose values are read off in key order by
`Object.values`. -/

inductive EmbResponse where
  | arr (values : List ℚ)
  | obj (fields : List (String × ℚ))
deriving DecidableEq, Repr

/-- The normalization in `generateEmbedding`:
`Array.isArray(embedding) ? embedding : Object.values(embedding)`. -/
def normalizeEmbedding : EmbResponse → List ℚ
  | .arr v => v
  | .obj f => f.map (·.2)

/-- Dimensionality of a provider response. -/
def embDim : EmbResponse → ℕ
  | .arr v => v.length
  | .obj f => f.length

/-- The value the provider placed at dimension `i` of its response. -/
def embValue : EmbResponse → ℕ → Option ℚ
  | .arr v, i => v[i]?
  | .obj f, i => (f[i]?).map (·.2)

/-- Observable outcome of one `generateEmbedding` call: the returned
vector or the thrown error, the number of provider calls made, and the
backoff sleeps (milliseconds) performed before each retry, in order. -/
structure EmbedTrace where
  result : Except String (List ℚ)
  calls : ℕ
  waits : List ℕ
deriving Repr

/-- The retry loop of `generateEmbedding`
(`for (let attempt = 0; attempt < maxRetries; attempt++)`), written with
the number of remaining iterations as explicit fuel
(`remaining = maxRetries - attempt`).  On a failed attempt the code
retries after `Math.pow(2, attempt) * 1000` milliseconds while
`attempt < maxRetries - 1` (that is, while `remaining > 1`), and
otherwise throws; if the loop exits, the trailing
`throw new Error('Failed to generate embedding')` runs. -/
def embedLoop (provider : ℕ → Except String EmbResponse) (attempt : ℕ) :
    ℕ → EmbedTrace
  | 0 => { result := .error "Failed to generate embedding", calls := 0, waits := [] }
  | remaining + 1 =>
    match provider attempt with
    | .ok e => { result := .ok (normalizeEmbedding e), calls := 1, waits := [] }
    | .error _ =>
      if remaining = 0 then
        { result := .error "Failed to generate embedding after all retries"
          calls := 1, waits := [] }
      else
        let rest := embedLoop provider (attempt + 1) remaining
        { result := rest.result, calls := rest.calls + 1
          waits := (2 ^ attempt * 1000) :: rest.waits }

/-- `generateEmbedding(text, maxRetries = 3)`, as a function of the
attempt-indexed outcomes of the `embedContent` provider calls. -/
def generateEmbedding (provider : ℕ → Except String EmbResponse)
    (maxRetries : ℕ := 3) : EmbedTrace :=
  embedLoop provider 0 maxRetries

/-- A simulated embedding provider that fails its first `n` calls and
succeeds from then on. -/
def failThenSucceed (n : ℕ) (e : EmbResponse) : ℕ → Except String EmbResponse :=
  fun i => if i < n then .error "provider failure" else .ok e

/-! ## JSON values, for the response bodies built with `NextResponse.json` -/

inductive Json where
  | str (s : String)
  | num (q : ℚ)
  | bool (b : Bool)
  | null
  | arr (elems : List Json)
  | obj (fields : List (String × Json))

/-- Keys of a JSON object, in serialization order. -/
def Json.keys : Json → List String
  | .obj fields => fields.map (·.1)
  | _ => []

/-- Field lookup in a JSON object. -/
def Json.getField (j : Json) (k : String) : Option Json :=
  match j with
  | .obj fields => (fields.find? (·.1 == k)).map (·.2)
  | _ => none

namespace SearchRoute

/-! Embedding of `src/app/api/search/route.ts`. -/

/-- `isQueryRelevantToSubject`: asks the generative model a strict yes/no
question; `modelResponse` is the outcome of that `generateContent` call.
Returns `response.text().trim().toUpperCase() === "YES"`, and `false` when
the call throws. -/
def isQueryRelevantToSubject (modelResponse : Except String String) : Bool :=
  match modelResponse with
  | .ok r => jsToUpperCase (jsTrim r) == "YES"
  | .error _ => false

/-- The fallback decision of the POST handler:
`isRelevant && (matches.length === 0 || matches.every(m => (m.score ?? 0) < 0.5))`. -/
def shouldUseFallback (isRelevant : Bool) (matchList : List PineconeMatch) : Bool :=
  isRelevant &&
    (matchList.length == 0 ||
      matchList.all (fun m => decide (m.score.getD 0 < oneHalf)))

/-- The two prompt templates the POST handler interpolates. -/
inductive PromptTemplate where
  | fallback
  | grounded
deriving DecidableEq, Repr

/-- The template chosen by the POST handler: the fallback
(general-knowledge) prompt when `shouldUseFallback`, the grounded
(textbook-only) prompt otherwise. -/
def selectTemplate (isRelevant : Bool) (matchList : List PineconeMatch) :
    PromptTemplate :=
  if shouldUseFallback isRelevant matchList then .fallback else .grounded

/-- Modelled from the spec wording of the relevance gate, for comparison
with the code: sufficient iff at least one match has `score >= minScore`
(a match without a score counts as score 0, as in the handler). -/
def isSufficientSpec (matchList : List PineconeMatch) (minScore : ℚ) : Bool :=
  matchList.any (fun m => decide (minScore ≤ m.score.getD 0))

/-- One entry of the `results` array of the response: keys with an
`undefined` value (`score`, `chunkNumber`) are dropped by JSON
serialization. -/
def matchJson (m : PineconeMatch) : Json :=
  .obj
    ([("text", Json.str (jsOrDefault m.text ""))] ++
      (match m.score with
        | some s => [("score", Json.num s)]
        | none => []) ++
      (match m.chunkNumber with
        | some c => [("chunkNumber", Json.str c)]
        | none => []))

/-- The success response body of the POST handler:
`{ results, aiResponse, usedFallback }`. -/
def searchRouteResponse (matchList : List PineconeMatch) (aiResponse : String)
    (usedFallback : Bool) : Json :=
  .obj
    [("results", Json.arr (matchList.map matchJson)),
     ("aiResponse", Json.str aiResponse),
     ("usedFallback", Json.bool usedFallback)]

end SearchRoute

namespace MedicalSearch

/-! Embedding of the medical-book route file (`src/unnamed/part_004`). -/

/-- The `SearchResult` interface of the route file. -/
structure SearchResult where
  text : String
  score : ℚ
  chunkNumber : String
deriving DecidableEq, Repr

/-- The filter predicate of `semanticSearch`:
`typeof match.score === 'number' && match.score >= minScore`. -/
def passScore (minScore : ℚ) (m : PineconeMatch) : Bool :=
  match m.score with
  | some s => decide (minScore ≤ s)
  | none => false

/-- The result constructed for one surviving match: `metadata?.text` cast
to string, the numeric score, and the stringified `chunk_number` metadata
value with default `N/A`. -/
def toResult (m : PineconeMatch) : SearchResult :=
  { text := jsCastString m.text
    score := m.score.getD 0
    chunkNumber := m.chunkNumber.getD "N/A" }

/-- The pure core of `semanticSearch`: keep the matches at or above the
threshold, in index order, then map them to `SearchResult`s. -/
def searchResults (matchList : List PineconeMatch) (minScore : ℚ) :
    List SearchResult :=
  (matchList.filter (passScore minScore)).map toResult

/-- Outcomes of the three effectful steps `semanticSearch` performs, in
order: `generateEmbedding`, `pc.index(...)` inside `connectToPinecone`,
and `index.namespace(...).query(...)`. -/
structure SearchEnv where
  embed : Except String (List ℚ)
  connect : Except String Unit
  queryMatches : Except String (List PineconeMatch)

/-- `connectToPinecone`: wraps `pc.index` and rethrows any failure as
`Failed to connect to Pinecone index: <name>`; on success the handle is
returned unchanged. -/
def connectToPinecone (conn : Except String Unit) (indexName : String) :
    Except String Unit :=
  match conn with
  | .ok h => .ok h
  | .error _ => .error ("Failed to connect to Pinecone index: " ++ indexName)

/-- The body of `semanticSearch` up to and including the result mapping:
any of the three steps may throw. -/
def semanticSearchBody (env : SearchEnv) (minScore : ℚ) :
    Except String (List SearchResult) := do
  let _ ← env.embed
  let _ ← connectToPinecone env.connect "PINECONE_INDEX_NAME"
  let matchList ← env.queryMatches
  pure (searchResults matchList minScore)

/-- `semanticSearch(query, topK = 3, minScore = 0.5)`: the whole body is
wrapped in a `try { ... } catch { console.error(...); return [] }`, so any
failure is turned into the empty result list. -/
def semanticSearch (env : SearchEnv) (minScore : ℚ := oneHalf) :
    List SearchResult :=
  match semanticSearchBody env minScore with
  | .ok r => r
  | .error _ => []

/-- `assessContextRelevance`: asks the model to answer `RELEVANT` or
`IRRELEVANT` and then tests
`result.response.text().toUpperCase().includes('RELEVANT')`; a thrown
error yields `false`. -/
def assessContextRelevance (modelResponse : Except String String) : Bool :=
  match modelResponse with
  | .ok t => jsIncludes (jsToUpperCase t) "RELEVANT"
  | .error _ => false

/-- The prompt branch of `getGeminiResponse`:
`context && isRelevant` selects the grounded medical-text prompt,
anything else the general-knowledge prompt. -/
def groundedPromptChosen (context : Option String)
    (relevanceModel : Except String String) : Bool :=
  context.isSome &&
    (match context with
      | some _ => assessContextRelevance relevanceModel
      | none => false)

/-- The constant returned by `getGeminiResponse` when the model answer is
empty or whitespace-only. -/
def geminiEmptyMessage : String :=
  "[SOURCE: ERROR] \n      Unable to generate a specific response. However, for any medical concerns, it's always recommended to:\n      1. Consult with a qualified healthcare provider\n      2. Seek emergency care if symptoms are severe\n      3. Keep track of your symptoms and when they occur\n      4. Bring a list of your current medications to medical appointments"

/-- The text returned by the `catch` branch of `getGeminiResponse`, up to
the point where the technical error details are appended. -/
def geminiErrorHeadline : String :=
  "[SOURCE: ERROR] \n    Unable to generate a specific response due to a technical error. However, for any medical concerns, please:\n    1. Consult with a qualified healthcare provider\n    2. Seek emergency care if symptoms are severe\n    3. Keep track of your symptoms and when they occur\n    4. Bring a list of your current medications to medical appointments\n    \n    Technical error details: "

/-- The response handling of `getGeminiResponse`, as a function of the
outcome of the `generateContent` call (the prompt text itself does not
influence this contract): a thrown error yields the error template with
the message appended, an empty or whitespace-only answer yields the fixed
error message, and any other answer is passed through. -/
def getGeminiResponse (genModel : Except String String) : String :=
  match genModel with
  | .error e => geminiErrorHeadline ++ e
  | .ok r => if r == "" || jsTrim r == "" then geminiEmptyMessage else r

end MedicalSearch

namespace LibrarySearch

/-! Embedding of the reference-library route file (`src/unnamed/part_005`),
whose `POST` handler builds the `{ results, aiResponse, hasContext }`
response body. -/

/-- The `SearchResult` interface of this route file, with the optional
`source` already defaulted (`match.metadata?.source as string || 'Unknown source'`). -/
structure SearchResult where
  text : String
  score : ℚ
  chunkNumber : String
  source : String
deriving DecidableEq, Repr

/-- The filter predicate of `semanticSearch`:
`typeof match.score === 'number' && match.score >= minScore`. -/
def passScore (minScore : ℚ) (m : PineconeMatch) : Bool :=
  match m.score with
  | some s => decide (minScore ≤ s)
  | none => false

/-- The result constructed for one surviving match. -/
def toResult (m : PineconeMatch) : SearchResult :=
  { text := jsCastString m.text
    score := m.score.getD 0
    chunkNumber := m.chunkNumber.getD "N/A"
    source := jsOrDefault m.source "Unknown source" }

/-- The pure core of `semanticSearch`: keep the matches at or above the
threshold, in index order, then map them to `SearchResult`s. -/
def searchResults (matchList : List PineconeMatch) (minScore : ℚ) :
    List SearchResult :=
  (matchList.filter (passScore minScore)).map toResult

/-- Outcomes of the effectful steps of `semanticSearch`, in order. -/
structure SearchEnv where
  embed : Except String (List ℚ)
  connect : Except String Unit
  queryMatches : Except String (List PineconeMatch)

/-- `connectToPinecone` of this route file (same rethrow wrapper). -/
def connectToPinecone (conn : Except String Unit) (indexName : String) :
    Except String Unit :=
  match conn with
  | .ok h => .ok h
  | .error _ => .error ("Failed to connect to Pinecone index: " ++ indexName)

/-- The body of `semanticSearch` up to the result mapping. -/
def semanticSearchBody (env : SearchEnv) (minScore : ℚ) :
    Except String (List SearchResult) := do
  let _ ← env.embed
  let _ ← connectToPinecone env.connect "PINECONE_INDEX_NAME"
  let matchList ← env.queryMatches
  pure (searchResults matchList minScore)

/-- `semanticSearch(query, topK = 3, minScore = 0.5)`: wrapped in
`try { ... } catch { return [] }`. -/
def semanticSearch (env : SearchEnv) (minScore : ℚ := oneHalf) :
    List SearchResult :=
  match semanticSearchBody env minScore with
  | .ok r => r
  | .error _ => []

/-- The rendering of one result inside `combinedContext`; the decimal
formatting `toFixed(4)` is abstracted as the rational rendering, which no
claim depends on. -/
def excerptLine (r : SearchResult) : String :=
  "[Excerpt (Similarity: " ++ toString r.score ++ ", Source: " ++
    (if r.source == "" then "Unknown" else r.source) ++ ")]\n" ++ r.text

/-- `combinedContext`: the joined excerpts when there is at least one
result, `undefined` otherwise. -/
def combinedContext (results : List SearchResult) : Option String :=
  if results.length > 0 then
    some (String.intercalate "\n\n" (results.map excerptLine))
  else none

/-- The `hasContext` flag of the response body: `!!combinedContext`. -/
def hasContext (results : List SearchResult) : Bool :=
  (combinedContext results).isSome

/-- One entry of the `results` array of the response body: the spread
`{...r}` keeps the key order text, score, chunkNumber, source, with the
text replaced by its similarity-prefixed rendering. -/
def resultEntry (r : SearchResult) : Json :=
  .obj
    [("text", Json.str ("[Similarity Score: " ++ toString r.score ++
        ", Source: " ++ (if r.source == "" then "Unknown" else r.source) ++
        "]\n" ++ r.text)),
     ("score", Json.num r.score),
     ("chunkNumber", Json.str r.chunkNumber),
     ("source", Json.str r.source)]

/-- The success response body of the POST handler:
`{ results, aiResponse, hasContext }`. -/
def libraryRouteResponse (results : List SearchResult) (aiResponse : String) :
    Json :=
  .obj
    [("results", Json.arr (results.map resultEntry)),
     ("aiResponse", Json.str aiResponse),
     ("hasContext", Json.bool (hasContext results))]

end LibrarySearch

namespace UploadRoute

/-! Embedding of the ingestion upload route (`src/unnamed/part_002`). -/

/-- The uploaded file as the handler sees it. -/
structure UploadFile where
  name : String
deriving DecidableEq, Repr

/-- The form-data fields of a request: `formData.get` yields `null` for a
missing field. -/
structure UploadRequest where
  file : Option UploadFile
  indexName : Option String
deriving DecidableEq, Repr

/-- Side effects the handler can perform after validation, in order:
creating the uploads directory, saving the file, spawning the Python
ingestion subprocess. -/
inductive UploadEffect where
  | mkdirUploads
  | saveFile (name : String)
  | spawnPython (script fileName indexName : String)
deriving DecidableEq, Repr

/-- What the handler replies with: an HTTP 400 validation error, or the
SSE progress stream of the spawned ingestion process. -/
inductive UploadOutcome where
  | badRequest (msg : String)
  | stream
deriving DecidableEq, Repr

/-- The regular expression `^[a-z0-9-]+$` of the handler: a nonempty
string of lowercase ASCII letters, digits and hyphens. -/
def validIndexName (s : String) : Bool :=
  !s.data.isEmpty &&
    s.data.all (fun c => c.isLower || c.isDigit || c == '-')

/-- The POST handler of the upload route up to the point where the
response is produced, paired with the effects performed.  A missing file
or missing/empty index name is rejected first
(`if (!file || !indexName)`); an index name failing the pattern is
rejected next; only then is the file written and the ingestion subprocess
spawned. -/
def uploadPOST (req : UploadRequest) : UploadOutcome × List UploadEffect :=
  match req.file, req.indexName with
  | some f, some idx =>
    if idx == "" then
      (.badRequest "File and index name are required", [])
    else if validIndexName idx then
      (.stream,
        [.mkdirUploads, .saveFile f.name,
         .spawnPython "bookembedder.py" f.name idx])
    else
      (.badRequest "Index name must contain only lowercase letters, numbers, and hyphens", [])
  | _, _ => (.badRequest "File and index name are required", [])

end UploadRoute

/-! ## Concrete instances used in witnesses and counterexamples -/

/-- A retrieval environment whose index query fails with a connection
error while embedding and connection succeed. -/
def failingEnv : MedicalSearch.SearchEnv :=
  { embed := .ok []
    connect := .ok ()
    queryMatches := .error "IndexConnectionError: unreachable endpoint" }

/-- An upload request whose index name violates `^[a-z0-9-]+$`. -/
def badUploadRequest : UploadRoute.UploadRequest :=
  { file := some { name := "book.pdf" }
    indexName := some "Bad_Name" }

/-- A match list ranked descending by score, as the vector index returns
it. -/
def rankedMatches : List PineconeMatch :=
  [{ score := some (Rat.divInt 9 10), text := some "alpha",
     chunkNumber := some "1", source := none },
   { score := some (Rat.divInt 1 2), text := some "beta",
     chunkNumber := some "2", source := none },
   { score := some (Rat.divInt 1 10), text := some "gamma",
     chunkNumber := some "3", source := none }]

/-- A keyed-object provider response with two dimensions. -/
def keyedResponse : EmbResponse :=
  EmbResponse.obj [("d0", Rat.divInt 1 4), ("d1", Rat.divInt 3 4)]

/-! ## Helper lemmas -/

lemma LibrarySearch.hasContext_eq (results : List LibrarySearch.SearchResult) :
    LibrarySearch.hasContext results = !results.isEmpty := by
  cases results <;> simp [LibrarySearch.hasContext, LibrarySearch.combinedContext]

lemma LibrarySearch.semanticSearchBody_ok (env : LibrarySearch.SearchEnv)
    (minScore : ℚ) (r : List LibrarySearch.SearchResult)
    (h : LibrarySearch.semanticSearchBody env minScore = Except.ok r) :
    ∃ ml, env.queryMatches = Except.ok ml ∧
      r = LibrarySearch.searchResults ml minScore := by
  unfold LibrarySearch.semanticSearchBody at h
  cases hemb : env.embed with
  | error e => rw [hemb] at h; simp [Bind.bind, Except.bind] at h
  | ok emb =>
    rw [hemb] at h
    cases hconn : env.connect with
    | error e =>
      rw [hconn] at h
      simp [Bind.bind, Except.bind, LibrarySearch.connectToPinecone] at h
    | ok u =>
      rw [hconn] at h
      cases hq : env.queryMatches with
      | error e =>
        rw [hq] at h
        simp [Bind.bind, Except.bind, LibrarySearch.connectToPinecone] at h
      | ok ml =>
        rw [hq] at h
        simp [Bind.bind, Except.bind, LibrarySearch.connectToPinecone, pure,
          Except.pure] at h
        exact ⟨ml, rfl, h.symm⟩

lemma tag_isPre_errorHeadline :
    "[SOURCE: ERROR]".data <+: MedicalSearch.geminiErrorHeadline.data := by
  decide

lemma tag_isPre_emptyMessage :
    "[SOURCE: ERROR]".data <+: MedicalSearch.geminiEmptyMessage.data := by
  decide

lemma ne_empty_of_tagged (s : String)
    (h : "[SOURCE: ERROR]".data <+: s.data) : s ≠ "" := by
  intro hs
  subst hs
  exact absurd (List.prefix_nil.mp h) (by decide)

lemma embedLoop_failThenSucceed (n : ℕ) (e : EmbResponse) :
    ∀ (remaining attempt : ℕ),
      embedLoop (failThenSucceed n e) attempt remaining =
        if remaining = 0 then
          { result := .error "Failed to generate embedding", calls := 0, waits := [] }
        else if n - attempt < remaining then
          { result := .ok (normalizeEmbedding e), calls := (n - attempt) + 1
            waits := (List.range' attempt (n - attempt) 1).map (fun k => 2 ^ k * 1000) }
        else
          { result := .error "Failed to generate embedding after all retries"
            calls := remaining
            waits := (List.range' attempt (remaining - 1) 1).map (fun k => 2 ^ k * 1000) } := by
  intro remaining
  induction remaining with
  | zero => intro attempt; simp [embedLoop]
  | succ rem ih =>
    intro attempt
    by_cases hlt : attempt < n
    · have hprov : failThenSucceed n e attempt = .error "provider failure" := by
        simp [failThenSucceed, hlt]
      by_cases hrem : rem = 0
      · subst hrem
        have hns : ¬ (n - attempt < 1) := by omega
        simp [embedLoop, hprov, hns]
      · have hsub : n - attempt = (n - (attempt + 1)) + 1 := by omega
        have hstep : embedLoop (failThenSucceed n e) attempt (rem + 1) =
            { result := (embedLoop (failThenSucceed n e) (attempt + 1) rem).result
              calls := (embedLoop (failThenSucceed n e) (attempt + 1) rem).calls + 1
              waits := (2 ^ attempt * 1000) ::
                (embedLoop (failThenSucceed n e) (attempt + 1) rem).waits } := by
          simp [embedLoop, hprov, hrem]
        rw [hstep, ih (attempt + 1)]
        by_cases hok : n - (attempt + 1) < rem
        · have hok' : n - attempt < rem + 1 := by omega
          simp only [if_neg hrem, if_pos hok, if_pos hok', Nat.succ_ne_zero,
            if_false, EmbedTrace.mk.injEq]
          refine ⟨trivial, by omega, ?_⟩
          rw [hsub, List.range'_succ, List.map_cons]
        · have hok' : ¬ (n - attempt < rem + 1) := by omega
          have hr1 : rem - 1 + 1 = rem := by omega
          simp only [if_neg hrem, if_neg hok, if_neg hok', Nat.succ_ne_zero,
            if_false, EmbedTrace.mk.injEq]
          refine ⟨trivial, trivial, ?_⟩
          have : rem + 1 - 1 = (rem - 1) + 1 := by omega
          rw [this, List.range'_succ, List.map_cons]
    · have hprov : failThenSucceed n e attempt = .ok e := by
        simp [failThenSucceed, hlt]
      have h0 : n - attempt = 0 := by omega
      simp [embedLoop, hprov, h0]

lemma embedLoop_ok_shape (provider : ℕ → Except String EmbResponse) :
    ∀ (remaining attempt : ℕ) (v : List ℚ),
      (embedLoop provider attempt remaining).result = Except.ok v →
      ∃ k r, provider k = Except.ok r ∧ v = normalizeEmbedding r := by
  intro remaining
  induction remaining with
  | zero => intro a v h; simp [embedLoop] at h
  | succ rem ih =>
    intro a v h
    cases hp : provider a with
    | ok e =>
      have : (embedLoop provider a (rem + 1)).result = Except.ok (normalizeEmbedding e) := by
        simp [embedLoop, hp]
      rw [this] at h
      exact ⟨a, e, hp, by injection h with h'; exact h'.symm⟩
    | error ex =>
      by_cases hrem : rem = 0
      · subst hrem
        have : (embedLoop provider a 1).result =
            Except.error "Failed to generate embedding after all retries" := by
          simp [embedLoop, hp]
        rw [this] at h
        exact absurd h (by simp)
      · have : (embedLoop provider a (rem + 1)).result =
            (embedLoop provider (a + 1) rem).result := by
          simp [embedLoop, hp, hrem]
        rw [this] at h
        exact ih (a + 1) v h

/-! ## Claim theorems -/

/-- C4 (code_bug evidence): the advisory relevance classification does
fail closed on thrown errors, but `assessContextRelevance` classifies the
exact negative token `IRRELEVANT` as relevant, because
`text.toUpperCase().includes('RELEVANT')` is satisfied by the substring
occurrence inside `IRRELEVANT`; the sibling `isQueryRelevantToSubject`
correctly returns `false` on the same non-affirmative answer. -/
theorem assessContextRelevance_substring_bug :
    MedicalSearch.assessContextRelevance (Except.ok "IRRELEVANT") = true ∧
    MedicalSearch.assessContextRelevance (Except.error "model unavailable") = false ∧
    SearchRoute.isQueryRelevantToSubject (Except.ok "IRRELEVANT") = false := by
  refine ⟨by decide, rfl, by decide⟩

/-- C5 (counterexample): when the index query fails, `semanticSearch`
does not propagate the failure: the body throws a connection error, yet
the caller receives the empty match list. -/
theorem semanticSearch_swallows_index_error :
    MedicalSearch.semanticSearchBody failingEnv oneHalf =
      Except.error "IndexConnectionError: unreachable endpoint" ∧
    MedicalSearch.semanticSearch failingEnv oneHalf = [] := by
  exact ⟨rfl, rfl⟩

/-- C5 (amended): `connectToPinecone` surfaces a connection failure as an
error without retrying, but `semanticSearch` wraps the whole retrieval in
a catch that swallows embedding, connection and query failures into the
empty match list. -/
theorem connect_propagates_search_defaults :
    (∀ (e idxName : String),
      MedicalSearch.connectToPinecone (Except.error e) idxName =
        Except.error ("Failed to connect to Pinecone index: " ++ idxName)) ∧
    (∀ (env : MedicalSearch.SearchEnv) (minScore : ℚ) (msg : String),
      MedicalSearch.semanticSearchBody env minScore = Except.error msg →
      MedicalSearch.semanticSearch env minScore = []) := by
  refine ⟨fun e idxName => rfl, fun env ms msg h => ?_⟩
  unfold MedicalSearch.semanticSearch
  rw [h]

/-- Witness for the amended C5 theorem at the failing environment. -/
theorem connect_propagates_search_defaults_witness :
    MedicalSearch.semanticSearch failingEnv oneHalf = [] :=
  connect_propagates_search_defaults.2 failingEnv oneHalf
    "IndexConnectionError: unreachable endpoint" rfl

/-- C10: every result `semanticSearch` returns scores at least `minScore`
(matches below the threshold are filtered out before the response is
built), and the `hasContext` flag is true exactly when at least one match
passed the filter. -/
theorem semanticSearch_threshold_hasContext (env : LibrarySearch.SearchEnv)
    (minScore : ℚ) :
    ((LibrarySearch.semanticSearch env minScore).all
        (fun r => decide (minScore ≤ r.score)) = true) ∧
    (LibrarySearch.hasContext (LibrarySearch.semanticSearch env minScore) = true ↔
      LibrarySearch.semanticSearch env minScore ≠ []) := by
  constructor
  · unfold LibrarySearch.semanticSearch
    cases hbody : LibrarySearch.semanticSearchBody env minScore with
    | error e => rfl
    | ok r =>
      obtain ⟨ml, _, hr⟩ := LibrarySearch.semanticSearchBody_ok env minScore r hbody
      subst hr
      rw [List.all_eq_true]
      intro res hres
      unfold LibrarySearch.searchResults at hres
      obtain ⟨m, hm, hmap⟩ := List.mem_map.mp hres
      obtain ⟨_, hpass⟩ := List.mem_filter.mp hm
      unfold LibrarySearch.passScore at hpass
      cases hsc : m.score with
      | none => rw [hsc] at hpass; exact absurd hpass (by simp)
      | some s =>
        rw [hsc] at hpass
        subst hmap
        simpa [LibrarySearch.toResult, hsc] using hpass
  · rw [LibrarySearch.hasContext_eq]
    cases LibrarySearch.semanticSearch env minScore <;> simp

/-- C9 (counterexample): a successful response of the search route in
`src/app/api/search/route.ts` has no `hasContext` field: its keys are
`results`, `aiResponse` and `usedFallback`. -/
theorem searchRoute_response_no_hasContext :
    ¬ ("hasContext" ∈
        (SearchRoute.searchRouteResponse [] "[SOURCE: physics Knowledge] answer" true).keys) ∧
    (SearchRoute.searchRouteResponse [] "[SOURCE: physics Knowledge] answer" true).keys =
      ["results", "aiResponse", "usedFallback"] := by
  exact ⟨by decide, by decide⟩

/-- C9 (amended): successful responses of the reference-library route
carry `results` entries with keys `text`, `score`, `chunkNumber`,
`source`, an `aiResponse` string, and a `hasContext` boolean that is true
exactly when the result list is nonempty; the search route in
`src/app/api/search` instead ends its response with a `usedFallback`
boolean and has no `hasContext` field. -/
theorem query_response_shapes (results : List LibrarySearch.SearchResult)
    (aiResponse : String) (matchList : List PineconeMatch)
    (aiResponse2 : String) (usedFallback : Bool) :
    (LibrarySearch.libraryRouteResponse results aiResponse).keys =
      ["results", "aiResponse", "hasContext"] ∧
    (LibrarySearch.libraryRouteResponse results aiResponse).getField "hasContext" =
      some (Json.bool (!results.isEmpty)) ∧
    (LibrarySearch.libraryRouteResponse results aiResponse).getField "aiResponse" =
      some (Json.str aiResponse) ∧
    (∀ r : LibrarySearch.SearchResult,
      (LibrarySearch.resultEntry r).keys = ["text", "score", "chunkNumber", "source"]) ∧
    (SearchRoute.searchRouteResponse matchList aiResponse2 usedFallback).keys =
      ["results", "aiResponse", "usedFallback"] := by
  refine ⟨rfl, ?_, rfl, fun r => rfl, rfl⟩
  have h : (LibrarySearch.libraryRouteResponse results aiResponse).getField "hasContext" =
      some (Json.bool (LibrarySearch.hasContext results)) := rfl
  rw [h, LibrarySearch.hasContext_eq]

/-- C8: an upload request whose index name is missing, empty, or fails
the pattern `^[a-z0-9-]+$`, or whose file is missing, is answered with an
HTTP 400 validation error and no file save, directory creation or
subprocess spawn is performed. -/
theorem upload_validation_rejected (req : UploadRoute.UploadRequest)
    (h : req.file = none ∨ req.indexName = none ∨
      ∃ idx, req.indexName = some idx ∧ UploadRoute.validIndexName idx = false) :
    ∃ msg, UploadRoute.uploadPOST req =
      (UploadRoute.UploadOutcome.badRequest msg, []) := by
  rcases req with ⟨file, idxName⟩
  cases file with
  | none => exact ⟨"File and index name are required", rfl⟩
  | some f =>
    cases idxName with
    | none => exact ⟨"File and index name are required", rfl⟩
    | some idx =>
      rcases h with h | h | ⟨idx', hidx, hval⟩
      · exact absurd h (by simp)
      · exact absurd h (by simp)
      · have heq : idx = idx' := by
          have : some idx = some idx' := hidx
          injection this
        subst heq
        by_cases hempty : idx = ""
        · subst hempty
          exact ⟨"File and index name are required", rfl⟩
        · refine ⟨"Index name must contain only lowercase letters, numbers, and hyphens", ?_⟩
          have hne : (idx == "") = false := by
            simp [hempty]
          simp [UploadRoute.uploadPOST, hne, hval]

/-- Witness for C8 at a concrete request with index name `Bad_Name`. -/
theorem upload_validation_rejected_witness :
    ∃ msg, UploadRoute.uploadPOST badUploadRequest =
      (UploadRoute.UploadOutcome.badRequest msg, []) :=
  upload_validation_rejected badUploadRequest
    (Or.inr (Or.inr ⟨"Bad_Name", rfl, by decide⟩))

/-- C7: when the generative call throws, `getGeminiResponse` returns the
fixed error template with the technical details appended after the
headline, and when the model answer is empty or whitespace-only it
returns the fixed error message; in both cases the answer is nonempty and
begins with the source tag `[SOURCE: ERROR]`. -/
theorem getGeminiResponse_error_tagged (genModel : Except String String) :
    (∀ e, genModel = Except.error e →
      MedicalSearch.getGeminiResponse genModel =
        MedicalSearch.geminiErrorHeadline ++ e) ∧
    (∀ r, genModel = Except.ok r → jsTrim r = "" →
      MedicalSearch.getGeminiResponse genModel =
        MedicalSearch.geminiEmptyMessage) ∧
    (((∃ e, genModel = Except.error e) ∨
        (∃ r, genModel = Except.ok r ∧ jsTrim r = "")) →
      MedicalSearch.getGeminiResponse genModel ≠ "" ∧
      "[SOURCE: ERROR]".data <+: (MedicalSearch.getGeminiResponse genModel).data) := by
  refine ⟨?_, ?_, ?_⟩
  · intro e he; subst he; rfl
  · intro r hr htrim
    subst hr
    unfold MedicalSearch.getGeminiResponse
    have : (jsTrim r == "") = true := by simp [htrim]
    simp [this]
  · intro hcase
    have hpre : "[SOURCE: ERROR]".data <+:
        (MedicalSearch.getGeminiResponse genModel).data := by
      rcases hcase with ⟨e, he⟩ | ⟨r, hr, htrim⟩
      · subst he
        have hout : MedicalSearch.getGeminiResponse (Except.error e) =
            MedicalSearch.geminiErrorHeadline ++ e := rfl
        rw [hout, String.data_append]
        exact tag_isPre_errorHeadline.trans (List.prefix_append _ _)
      · subst hr
        have hout : MedicalSearch.getGeminiResponse (Except.ok r) =
            MedicalSearch.geminiEmptyMessage := by
          unfold MedicalSearch.getGeminiResponse
          have : (jsTrim r == "") = true := by simp [htrim]
          simp [this]
        rw [hout]
        exact tag_isPre_emptyMessage
    exact ⟨ne_empty_of_tagged _ hpre, hpre⟩

/-- Witness for C7 at a concrete failing generative call. -/
theorem getGeminiResponse_error_tagged_witness :
    MedicalSearch.getGeminiResponse (Except.error "Gemini quota exceeded") ≠ "" ∧
    "[SOURCE: ERROR]".data <+:
      (MedicalSearch.getGeminiResponse (Except.error "Gemini quota exceeded")).data :=
  (getGeminiResponse_error_tagged (Except.error "Gemini quota exceeded")).2.2
    (Or.inl ⟨"Gemini quota exceeded", rfl⟩)

/-- C1: the POST handler of the search route selects the fallback
(general-knowledge) template exactly when the in-domain check returned
true and no retrieved match reaches the 0.5 threshold, an empty match
list being insufficient at every threshold; otherwise it selects the
grounded (textbook-only) template. -/
theorem fallback_template_selection (isRelevant : Bool)
    (matchList : List PineconeMatch) :
    (SearchRoute.selectTemplate isRelevant matchList =
        SearchRoute.PromptTemplate.fallback ↔
      isRelevant = true ∧
        SearchRoute.isSufficientSpec matchList oneHalf = false) ∧
    (∀ minScore : ℚ, SearchRoute.isSufficientSpec [] minScore = false) := by
  refine ⟨?_, fun _ => rfl⟩
  have key : SearchRoute.shouldUseFallback isRelevant matchList = true ↔
      (isRelevant = true ∧
        SearchRoute.isSufficientSpec matchList oneHalf = false) := by
    unfold SearchRoute.shouldUseFallback SearchRoute.isSufficientSpec
    simp only [Bool.and_eq_true, Bool.or_eq_true, beq_iff_eq,
      List.length_eq_zero, List.all_eq_true, decide_eq_true_eq,
      Bool.eq_false_iff, ne_eq, List.any_eq_true, not_exists, not_and,
      and_congr_right_iff]
    intro _
    constructor
    · rintro (rfl | hall)
      · intro m hm; exact absurd hm (List.not_mem_nil m)
      · intro m hm hle; exact absurd (hall m hm) (not_lt.mpr hle)
    · intro hno
      right
      intro m hm
      by_contra hge
      exact hno m hm (not_lt.mp hge)
  unfold SearchRoute.selectTemplate
  by_cases h : SearchRoute.shouldUseFallback isRelevant matchList = true
  · rw [if_pos h]
    simpa using key.mp h
  · have hfalse : SearchRoute.shouldUseFallback isRelevant matchList = false :=
      Bool.eq_false_iff.mpr h
    rw [if_neg (by simp [hfalse])]
    constructor
    · intro hcontra; exact absurd hcontra (by simp)
    · intro hrhs; exact absurd (key.mpr hrhs) h

/-- C2: against a provider failing its first `n` calls, `generateEmbedding`
succeeds iff `n < maxRetries`, making `n + 1` provider calls on success
and exactly `maxRetries` calls before aborting otherwise, and sleeps
`2 ^ attempt * 1000` milliseconds (2^attempt seconds, from attempt 0)
before each retry. -/
theorem generateEmbedding_retry_bound (n maxRetries : ℕ) (e : EmbResponse) :
    ((∃ v, (generateEmbedding (failThenSucceed n e) maxRetries).result =
        Except.ok v) ↔ n < maxRetries) ∧
    (n < maxRetries →
      (generateEmbedding (failThenSucceed n e) maxRetries).calls = n + 1) ∧
    (maxRetries ≤ n →
      (generateEmbedding (failThenSucceed n e) maxRetries).calls = maxRetries) ∧
    (generateEmbedding (failThenSucceed n e) maxRetries).waits =
      (List.range (min n (maxRetries - 1))).map (fun a => 2 ^ a * 1000) := by
  have hloop := embedLoop_failThenSucceed n e maxRetries 0
  rw [Nat.sub_zero] at hloop
  unfold generateEmbedding
  rw [hloop]
  by_cases hM : maxRetries = 0
  · subst hM
    simp
  · by_cases hn : n < maxRetries
    · have hmin : min n (maxRetries - 1) = n := by omega
      rw [if_neg hM, if_pos hn, hmin, List.range_eq_range']
      refine ⟨⟨fun _ => hn, fun _ => ⟨normalizeEmbedding e, rfl⟩⟩, fun _ => rfl,
        fun hle => absurd hn (not_lt.mpr hle), rfl⟩
    · have hmin : min n (maxRetries - 1) = maxRetries - 1 := by omega
      rw [if_neg hM, if_neg hn, hmin, List.range_eq_range']
      refine ⟨⟨fun hex => ?_, fun hlt => absurd hlt hn⟩,
        fun hlt => absurd hlt hn, fun _ => rfl, rfl⟩
      obtain ⟨v, hv⟩ := hex
      exact absurd hv (by simp)

/-- Witness for C2: with `maxRetries = 3`, two initial failures still
succeed after 3 calls, while a provider failing 7 times aborts after
exactly 3 calls having slept 1 and 2 seconds. -/
theorem generateEmbedding_retry_bound_witness :
    (generateEmbedding (failThenSucceed 2 (EmbResponse.arr [Rat.divInt 3 4])) 3).calls = 3 ∧
    (generateEmbedding (failThenSucceed 7 (EmbResponse.arr [])) 3).calls = 3 ∧
    (generateEmbedding (failThenSucceed 7 (EmbResponse.arr [])) 3).waits = [1000, 2000] := by
  refine ⟨?_, ?_, ?_⟩
  · exact (generateEmbedding_retry_bound 2 3 (EmbResponse.arr [Rat.divInt 3 4])).2.1
      (by decide)
  · exact (generateEmbedding_retry_bound 7 3 (EmbResponse.arr [])).2.2.1 (by decide)
  · rw [(generateEmbedding_retry_bound 7 3 (EmbResponse.arr [])).2.2.2]
    decide

/-- C3: whatever shape the provider answered with on the successful
attempt (plain array or keyed object), a successful `generateEmbedding`
returns its normalization: one flat numeric list whose length is the
provider response dimensionality and whose entries equal the provider
values at the same positions. -/
theorem generateEmbedding_shape (provider : ℕ → Except String EmbResponse)
    (maxRetries : ℕ) (v : List ℚ)
    (h : (generateEmbedding provider maxRetries).result = Except.ok v) :
    ∃ k r, provider k = Except.ok r ∧ v = normalizeEmbedding r ∧
      v.length = embDim r ∧ ∀ i : ℕ, v[i]? = embValue r i := by
  obtain ⟨k, r, hk, hv⟩ := embedLoop_ok_shape provider maxRetries 0 v h
  refine ⟨k, r, hk, hv, ?_, ?_⟩
  · subst hv
    cases r with
    | arr w => rfl
    | obj f => simp [normalizeEmbedding, embDim]
  · intro i
    subst hv
    cases r with
    | arr w => rfl
    | obj f => simp [normalizeEmbedding, embValue, List.getElem?_map]

/-- Witness for C3 at a keyed-object provider response. -/
theorem generateEmbedding_shape_witness :
    ∃ k r, (fun _ => Except.ok keyedResponse : ℕ → Except String EmbResponse) k =
        Except.ok r ∧
      [Rat.divInt 1 4, Rat.divInt 3 4] = normalizeEmbedding r ∧
      [Rat.divInt 1 4, Rat.divInt 3 4].length = embDim r ∧
      ∀ i : ℕ, [Rat.divInt 1 4, Rat.divInt 3 4][i]? = embValue r i :=
  generateEmbedding_shape (fun _ => Except.ok keyedResponse) 3
    [Rat.divInt 1 4, Rat.divInt 3 4] rfl

/-- C6: if the index returned its matches ranked descending by score,
the result list of `semanticSearch` is again non-increasing in score, and
it arises from an order-preserving subselection (a stable filter) of the
match list, so equal scores keep the order of the underlying index. -/
theorem searchResults_ranking (matchList : List PineconeMatch) (minScore : ℚ)
    (hranked : matchList.Pairwise
      (fun a b => b.score.getD 0 ≤ a.score.getD 0)) :
    (((MedicalSearch.searchResults matchList minScore).map
        MedicalSearch.SearchResult.score).Pairwise (fun a b => b ≤ a)) ∧
    List.Sublist (matchList.filter (MedicalSearch.passScore minScore)) matchList ∧
    MedicalSearch.searchResults matchList minScore =
      (matchList.filter (MedicalSearch.passScore minScore)).map
        MedicalSearch.toResult := by
  refine ⟨?_, List.filter_sublist matchList, rfl⟩
  unfold MedicalSearch.searchResults
  rw [List.map_map]
  have hf := hranked.filter (MedicalSearch.passScore minScore)
  exact hf.map _ (fun a b hab => hab)

/-- Witness for C6 at a descending three-match list around the 0.5
threshold. -/
theorem searchResults_ranking_witness :
    rankedMatches.Pairwise (fun a b => b.score.getD 0 ≤ a.score.getD 0) ∧
    ((((MedicalSearch.searchResults rankedMatches oneHalf).map
        MedicalSearch.SearchResult.score).Pairwise (fun a b => b ≤ a)) ∧
    List.Sublist (rankedMatches.filter (MedicalSearch.passScore oneHalf)) rankedMatches ∧
    MedicalSearch.searchResults rankedMatches oneHalf =
      (rankedMatches.filter (MedicalSearch.passScore oneHalf)).map
        MedicalSearch.toResult) :=
  ⟨by decide, searchResults_ranking rankedMatches oneHalf (by decide)⟩
